import Mathlib

/-!
Verification of the voice-notes application (client note store, reminder
scheduler, and Express server routes) against its natural-language
specification.  Pure logic from the sources is embedded shallowly:

* timestamps are modelled as natural numbers counting milliseconds on the
  local clock (one day is 86400000 ms), matching the arithmetic the code
  performs on JavaScript Date values;
* JavaScript objects parsed from JSON are modelled as structures with
  optional fields, and the falsy-or idiom `x || d` on strings is modelled
  explicitly (absent or empty strings fall back to the default);
* the note-id to notification-handle map persisted by the notification
  hook is modelled as a functional association list, and the set of
  notifications scheduled with the OS as a list of handles.
-/

namespace VoiceNotes

/-! ## Time model -/

def msPerMinute : Nat := 60000

def msPerHour : Nat := 3600000

def msPerDay : Nat := 86400000

/-- Start of the local calendar day containing instant `t` (what
`new Date(t)` followed by `setHours(h, 0, 0, 0)` computes, up to the hour). -/
def startOfDay (t : Nat) : Nat := t / msPerDay * msPerDay

/-- Instant `t` with the local clock set to hour `h` (JS `setHours(h,0,0,0)`). -/
def atHour (t h : Nat) : Nat := startOfDay t + h * msPerHour

/-! ## JavaScript falsy-or on optional JSON fields -/

/-- JS `s || d` for a possibly-absent string field: absent or empty falls
back to `d`. -/
def orFalsy (o : Option String) (d : String) : String :=
  match o with
  | some s => if s = "" then d else s
  | none => d

/-- JS `s || null` for a possibly-absent string field: absent or empty
becomes null. -/
def orNull (o : Option String) : Option String :=
  match o with
  | some s => if s = "" then none else some s
  | none => none

/-! ## Server data model (`server/routes.ts`)

The caller-supplied note records posted to `/api/query` carry the full
field set of the data model (including `tags` and `archivedAt`, which the
route and the query screen read). -/

structure NoteRec where
  id : String
  rawText : String
  title : String
  category : String
  dueDate : Option Nat
  entities : List String
  tags : List String
  completed : Bool
  archivedAt : Option Nat
  createdAt : Nat
deriving DecidableEq, Repr

/-- Shape of one extracted note draft produced by `/api/transcribe`. -/
structure NoteDraft where
  rawText : String
  title : String
  category : String
  dueDate : Option String
  entities : List String
  tags : List String
deriving DecidableEq, Repr

/-- Parsed JSON returned by the understanding call inside
`/api/transcribe`, as the handler reads it: an optional `notes` array plus
the optional flat single-note fields it falls back to. -/
structure TranscribeParsed where
  notes : Option (List NoteDraft)
  title : Option String
  category : Option String
  dueDate : Option String
  entities : Option (List String)
  tags : Option (List String)
deriving DecidableEq, Repr

/-- Understanding response whose parsed JSON is the empty object. -/
def emptyTranscribeParsed : TranscribeParsed :=
  { notes := none, title := none, category := none, dueDate := none,
    entities := none, tags := none }

/-- Notes list computed by `/api/transcribe` from the transcript `rawText`
and the parsed understanding response:
`parsed.notes || [{ rawText, title: parsed.title || rawText.slice(0,50),
category: parsed.category || "other", dueDate: parsed.dueDate || null,
entities: parsed.entities || [], tags: parsed.tags || [] }]`. -/
def transcribeNotes (rawText : String) (parsed : TranscribeParsed) : List NoteDraft :=
  match parsed.notes with
  | some ns => ns
  | none =>
    [{ rawText := rawText
       title := orFalsy parsed.title (rawText.take 50)
       category := orFalsy parsed.category "other"
       dueDate := orNull parsed.dueDate
       entities := parsed.entities.getD []
       tags := parsed.tags.getD [] }]

/-- Parsed JSON returned by the understanding call inside `/api/query`, as
the handler reads it. -/
structure QueryParsed where
  response : Option String
  matchedNoteIds : Option (List String)
  action : Option String
  sectionName : Option String
  sectionIcon : Option String
  sectionKeywords : Option (List String)
deriving DecidableEq, Repr

/-- Understanding response whose parsed JSON is the empty object. -/
def emptyQueryParsed : QueryParsed :=
  { response := none, matchedNoteIds := none, action := none,
    sectionName := none, sectionIcon := none, sectionKeywords := none }

/-- Required fallback reply of `/api/query`
(the string is built without a literal apostrophe character). -/
def fallbackMsg : String :=
  "I couldn" ++ String.singleton (Char.ofNat 39) ++ "t find anything related to that."

/-- Body of the `/api/query` 200 response. -/
structure QueryResult where
  query : String
  response : String
  matchedNotes : List NoteRec
  action : Option String
  sectionName : Option String
  sectionIcon : Option String
  sectionKeywords : List String
deriving DecidableEq, Repr

/-- The `matchedNotes` computation of `/api/query`:
`notes.filter((n) => (parsed.matchedNoteIds || []).includes(n.id))`. -/
def matchedNotesOf (notes : List NoteRec) (ids : List String) : List NoteRec :=
  notes.filter (fun n => ids.contains n.id)

/-- Response assembly of `/api/query` after the understanding call:
each field applies the falsy-or defaults the handler writes. -/
def buildQueryResult (query : String) (notes : List NoteRec)
    (parsed : QueryParsed) : QueryResult :=
  { query := query
    response := orFalsy parsed.response fallbackMsg
    matchedNotes := matchedNotesOf notes (parsed.matchedNoteIds.getD [])
    action := orNull parsed.action
    sectionName := orNull parsed.sectionName
    sectionIcon := orNull parsed.sectionIcon
    sectionKeywords := parsed.sectionKeywords.getD [] }

/-! ## Sample records used by witnesses -/

def wNoteA : NoteRec :=
  { id := "a", rawText := "alpha", title := "Alpha", category := "today",
    dueDate := none, entities := [], tags := [], completed := false,
    archivedAt := none, createdAt := 1 }

def wNoteB : NoteRec :=
  { id := "b", rawText := "beta", title := "Beta", category := "shopping",
    dueDate := none, entities := [], tags := ["Work"], completed := false,
    archivedAt := none, createdAt := 2 }

/-- C2: the `matchedNotes` field of `/api/query` is exactly the subset of
the caller-supplied notes whose id occurs in the interpreter output
`matchedNoteIds` (no extra, no missing, no duplicates given the caller
collection has pairwise distinct ids), and ids without a corresponding
caller note are silently dropped: no returned note carries such an id. -/
theorem query_matchedNotes_exact_subset (notes : List NoteRec) (ids : List String)
    (h : (notes.map NoteRec.id).Nodup) :
    (∀ n, n ∈ matchedNotesOf notes ids ↔ (n ∈ notes ∧ n.id ∈ ids))
    ∧ (matchedNotesOf notes ids).Nodup
    ∧ (∀ i, i ∈ ids → i ∉ notes.map NoteRec.id →
        ∀ n, n ∈ matchedNotesOf notes ids → n.id ≠ i) := by
  have hmem : ∀ n, n ∈ matchedNotesOf notes ids ↔ (n ∈ notes ∧ n.id ∈ ids) := by
    intro n
    simp [matchedNotesOf, List.mem_filter, List.contains, List.elem_iff]
  refine ⟨hmem, ?_, ?_⟩
  · exact (List.filter_sublist notes).nodup (List.Nodup.of_map _ h)
  · intro i hi hnot n hn hid
    exact hnot (List.mem_map.mpr ⟨n, ((hmem n).mp hn).1, hid⟩)

/-- C2 witness: the theorem applied to a concrete two-note collection and
an id list containing one resolvable and one unknown id. -/
theorem query_matchedNotes_exact_subset_witness :
    (∀ n, n ∈ matchedNotesOf [wNoteA, wNoteB] ["b", "z"]
        ↔ (n ∈ [wNoteA, wNoteB] ∧ n.id ∈ ["b", "z"]))
    ∧ (matchedNotesOf [wNoteA, wNoteB] ["b", "z"]).Nodup
    ∧ (∀ i, i ∈ ["b", "z"] → i ∉ [wNoteA, wNoteB].map NoteRec.id →
        ∀ n, n ∈ matchedNotesOf [wNoteA, wNoteB] ["b", "z"] → n.id ≠ i) :=
  query_matchedNotes_exact_subset [wNoteA, wNoteB] ["b", "z"] (by decide)

/-- C3: when the understanding response parses to the empty JSON object
(or equivalently lacks every expected field), the `/api/query` handler
still returns a result: the response is the required fallback string, the
matched-note list is empty, and the action is null. -/
theorem query_fallback_on_empty_response (q : String) (notes : List NoteRec) :
    buildQueryResult q notes emptyQueryParsed =
      { query := q, response := fallbackMsg, matchedNotes := [],
        action := none, sectionName := none, sectionIcon := none,
        sectionKeywords := [] } := by
  simp only [buildQueryResult, emptyQueryParsed, orFalsy, orNull, Option.getD]
  refine congrArg (fun l => QueryResult.mk q fallbackMsg l none none none []) ?_
  simp [matchedNotesOf, List.filter_eq_nil_iff, List.contains]

/-- C4 counterexample: an understanding response with no `notes` array but
with a flat `category` field does not fall back to the claimed constant
draft: the handler keeps `parsed.category` (here, the category of the
single returned draft is "idea" rather than the claimed "other"). -/
def c4Parsed : TranscribeParsed :=
  { notes := none, title := none, category := some "idea", dueDate := none,
    entities := none, tags := none }

/-- Draft the claim predicts for the fallback path. -/
def claimedFallbackDraft (rt : String) : NoteDraft :=
  { rawText := rt, title := rt.take 50, category := "other",
    dueDate := none, entities := [], tags := [] }

/-- C4 counterexample theorem: at a concrete transcript and a malformed
response carrying `category = "idea"` and no `notes` array, the computed
draft list differs from the claimed fallback (category is "idea"). -/
theorem transcribe_fallback_counterexample :
    (transcribeNotes "plant more roses" c4Parsed).map NoteDraft.category = ["idea"]
    ∧ transcribeNotes "plant more roses" c4Parsed
        ≠ [claimedFallbackDraft "plant more roses"] := by
  refine ⟨rfl, ?_⟩
  intro h
  have hcat := congrArg (fun l => l.map NoteDraft.category) h
  simp only [transcribeNotes, c4Parsed, claimedFallbackDraft, orFalsy,
    List.map_cons, List.map_nil] at hcat
  exact absurd (List.cons_eq_cons.mp hcat).1 (by decide)

/-- C4 amended: when the extraction response has no `notes` array, the
handler returns exactly one draft whose `rawText` is the whole transcript;
its remaining fields use the claimed constants only as field-level
fallbacks (flat single-note fields of the response take precedence), so on
a fully empty response the draft is exactly the claimed one: category
"other", tags `[]`, dueDate null, title the first 50 characters of the
transcript. -/
theorem transcribe_fallback_amended :
    (∀ (rt : String) (p : TranscribeParsed), p.notes = none →
        ((transcribeNotes rt p).length = 1
          ∧ ∀ d ∈ transcribeNotes rt p, d.rawText = rt))
    ∧ (∀ rt : String,
        transcribeNotes rt emptyTranscribeParsed = [claimedFallbackDraft rt]) := by
  constructor
  · intro rt p h
    simp [transcribeNotes, h]
  · intro rt
    simp [transcribeNotes, emptyTranscribeParsed, claimedFallbackDraft,
      orFalsy, orNull]

/-- C4 witness: the amended fallback evaluated on a concrete transcript
with the empty understanding response. -/
theorem transcribe_fallback_amended_witness :
    (transcribeNotes "hello" emptyTranscribeParsed).length = 1
    ∧ ∀ d ∈ transcribeNotes "hello" emptyTranscribeParsed, d.rawText = "hello" :=
  transcribe_fallback_amended.1 "hello" emptyTranscribeParsed rfl

/-! ## Client note store (`client/hooks/useNotes.tsx`)

The stored note record of the provided store version.  `dueDate` and
`createdAt` are ISO strings in the source; they are modelled by the
instants they denote.  `category` is a string at runtime (the source casts
the input string). -/

structure Note where
  id : String
  rawText : String
  title : String
  category : String
  dueDate : Option Nat
  entities : Option (List String)
  completed : Bool
  createdAt : Nat
deriving DecidableEq, Repr

/-! ## Reminder trigger computation (`client/hooks/useNotifications.tsx`) -/

/-- Trigger instant computed by `calculateTriggerDate(note)` at current
instant `now`: with a due date, 15 minutes before it, or none when that
instant is not in the future; otherwise by category: today at 18:00 (one
hour from now once 18:00 is not ahead), tomorrow at 09:00, shopping next
day at 10:00, anything else none.  The due-date comparison
`dueDate - 15min > now` is written additively to avoid truncated
subtraction; the two agree on instants. -/
def calculateTriggerDate (now : Nat) (note : Note) : Option Nat :=
  match note.dueDate with
  | some due =>
    if now + 15 * msPerMinute < due then some (due - 15 * msPerMinute) else none
  | none =>
    if note.category = "today" then
      let sixPM := atHour now 18
      if now < sixPM then some sixPM else some (now + msPerHour)
    else if note.category = "tomorrow" then some (atHour now 9 + msPerDay)
    else if note.category = "shopping" then some (atHour now 10 + msPerDay)
    else none

/-- Modelled from the spec: the trigger-time computation as the
specification words it, with configurable lead minutes and reminder hours
(defaults 15, 18:00, 09:00, 10:00).  The repository exposes
`reminderLeadMinutes`, `todayReminderHour` and `tomorrowReminderHour` as
user settings, but no provided source consumes them for scheduling. -/
def calcTriggerDateSpec (lead todayH tomorrowH shopH : Nat) (now : Nat)
    (note : Note) : Option Nat :=
  match note.dueDate with
  | some due =>
    if now + lead * msPerMinute < due then some (due - lead * msPerMinute) else none
  | none =>
    if note.category = "today" then
      let target := atHour now todayH
      if now < target then some target else some (now + msPerHour)
    else if note.category = "tomorrow" then some (atHour now tomorrowH + msPerDay)
    else if note.category = "shopping" then some (atHour now shopH + msPerDay)
    else none

/-- Concrete note with a due date 20 minutes after noon of day zero. -/
def c1Note : Note :=
  { id := "n1", rawText := "call the dentist", title := "Call dentist",
    category := "today", dueDate := some (12 * msPerHour + 20 * msPerMinute),
    entities := none, completed := false, createdAt := 0 }

/-- C1 counterexample: with the lead configured to 30 minutes (an option
the settings screen offers) and a due date 20 minutes ahead, the claimed
computation schedules nothing (the trigger lies in the past) while the
code still schedules 15 minutes before the due date: the code uses the
fixed constant 15, not the configured lead. -/
theorem calculateTriggerDate_counterexample :
    calculateTriggerDate (12 * msPerHour) c1Note
      = some (12 * msPerHour + 5 * msPerMinute)
    ∧ calcTriggerDateSpec 30 18 9 10 (12 * msPerHour) c1Note = none := by
  constructor
  · rfl
  · rfl

/-- C1 amended: the trigger computation matches the claimed one with the
lead fixed at 15 minutes and the hours fixed at 18:00, 09:00 and 10:00
(the default settings values), regardless of the configured reminder
settings; in particular a due date triggers 15 minutes ahead only when
that instant is still in the future, and a dueDate-less "today" note whose
18:00 target is not ahead of the clock triggers one hour from now. -/
theorem calculateTriggerDate_fixed_defaults :
    (∀ now note, calculateTriggerDate now note = calcTriggerDateSpec 15 18 9 10 now note)
    ∧ (∀ now note, note.dueDate = none → note.category = "today" →
        atHour now 18 ≤ now → calculateTriggerDate now note = some (now + msPerHour)) := by
  constructor
  · intro now note
    simp only [calculateTriggerDate, calcTriggerDateSpec]
  · intro now note hdue hcat hhour
    simp [calculateTriggerDate, hdue, hcat, Nat.not_lt.mpr hhour]

/-- Note of category "today" with no due date, used at 19:00. -/
def c1TodayNote : Note :=
  { id := "n2", rawText := "finish the report", title := "Finish report",
    category := "today", dueDate := none, entities := none,
    completed := false, createdAt := 0 }

/-- C1 witness: at 19:00 local (day zero) the 18:00 target has passed, so
the computed trigger for a "today" note is now plus one hour (20:00). -/
theorem calculateTriggerDate_fixed_defaults_witness :
    calculateTriggerDate (19 * msPerHour) c1TodayNote
      = some (19 * msPerHour + msPerHour) :=
  calculateTriggerDate_fixed_defaults.2 (19 * msPerHour) c1TodayNote rfl rfl
    (by decide)

/-! ## Note store operations (`client/hooks/useNotes.tsx`) -/

/-- Input accepted by `addNote` (the draft). -/
structure NoteInput where
  rawText : String
  title : String
  category : String
  dueDate : Option Nat
  entities : Option (List String)
deriving DecidableEq, Repr

/-- Store state: the in-memory collection plus the persisted blob
(`none` models no blob ever written). -/
structure NotesStore where
  notes : List Note
  stored : Option (List Note)
deriving DecidableEq, Repr

/-- Note record built by `addNote`: fresh id, fields copied from the
input (an empty category string falls back to "other" via the falsy-or),
`completed: false`, fresh `createdAt`. -/
def mkNewNote (freshId : String) (nowTs : Nat) (input : NoteInput) : Note :=
  { id := freshId
    rawText := input.rawText
    title := input.title
    category := if input.category = "" then "other" else input.category
    dueDate := input.dueDate
    entities := input.entities
    completed := false
    createdAt := nowTs }

/-- The `addNote` mutation: prepend the new note and persist the updated
collection. -/
def addNote (freshId : String) (nowTs : Nat) (input : NoteInput)
    (st : NotesStore) : NotesStore :=
  let updated := mkNewNote freshId nowTs input :: st.notes
  { notes := updated, stored := some updated }

/-- The sort applied by `loadNotes`: by `createdAt` descending. -/
def sortByCreatedDesc (l : List Note) : List Note :=
  l.mergeSort (fun a b => decide (b.createdAt ≤ a.createdAt))

/-- The `loadNotes` read of the persisted blob: absence of a blob keeps
the empty collection, otherwise the parsed list sorted most-recent-first. -/
def loadNotes (stored : Option (List Note)) : List Note :=
  match stored with
  | none => []
  | some l => sortByCreatedDesc l

/-- C7: `addNote` assigns the fresh id and `createdAt`, sets `completed`
to false, prepends the new note to the in-memory collection, persists the
updated collection, and after a full reload the note carrying the fresh id
has exactly the draft fields, with only id and `createdAt` newly
assigned.  Hypotheses: the fresh id is really fresh, and the draft has a
category (a nonempty category string, as every draft of the data model
does). -/
theorem addNote_roundTrip (freshId : String) (nowTs : Nat) (input : NoteInput)
    (st : NotesStore)
    (hfresh : freshId ∉ st.notes.map Note.id)
    (hcat : input.category ≠ "") :
    (∃ n, (addNote freshId nowTs input st).notes = n :: st.notes
        ∧ n.id = freshId ∧ n.createdAt = nowTs ∧ n.completed = false
        ∧ n.rawText = input.rawText ∧ n.title = input.title
        ∧ n.category = input.category ∧ n.dueDate = input.dueDate
        ∧ n.entities = input.entities)
    ∧ (addNote freshId nowTs input st).stored
        = some (addNote freshId nowTs input st).notes
    ∧ (∃ n ∈ loadNotes (addNote freshId nowTs input st).stored, n.id = freshId)
    ∧ (∀ n ∈ loadNotes (addNote freshId nowTs input st).stored, n.id = freshId →
        (n.rawText = input.rawText ∧ n.title = input.title
          ∧ n.category = input.category ∧ n.dueDate = input.dueDate
          ∧ n.entities = input.entities ∧ n.completed = false
          ∧ n.createdAt = nowTs)) := by
  have hcat2 : (if input.category = "" then "other" else input.category)
      = input.category := if_neg hcat
  have hperm : List.Perm (loadNotes (addNote freshId nowTs input st).stored)
      (mkNewNote freshId nowTs input :: st.notes) := by
    simpa [addNote, loadNotes, sortByCreatedDesc] using
      List.mergeSort_perm (mkNewNote freshId nowTs input :: st.notes)
        (fun a b => decide (b.createdAt ≤ a.createdAt))
  refine ⟨⟨mkNewNote freshId nowTs input, rfl, rfl, rfl, rfl, rfl, rfl, hcat2, rfl, rfl⟩,
    rfl, ?_, ?_⟩
  · exact ⟨mkNewNote freshId nowTs input,
      hperm.mem_iff.mpr (List.mem_cons_self _ _), rfl⟩
  · intro n hn hid
    have hmem : n ∈ mkNewNote freshId nowTs input :: st.notes := hperm.mem_iff.mp hn
    rcases List.mem_cons.mp hmem with heq | htail
    · subst heq
      exact ⟨rfl, rfl, hcat2, rfl, rfl, rfl, rfl⟩
    · exact absurd (List.mem_map.mpr ⟨n, htail, hid⟩) hfresh

/-- Pre-existing note used by the C7 witness store. -/
def wOldNote : Note :=
  { id := "old", rawText := "water plants", title := "Water plants",
    category := "other", dueDate := none, entities := none,
    completed := true, createdAt := 5 }

/-- Draft used by the C7 witness. -/
def wInput : NoteInput :=
  { rawText := "buy milk and eggs", title := "Buy milk", category := "shopping",
    dueDate := none, entities := some ["milk", "eggs"] }

/-- Store used by the C7 witness. -/
def wStore : NotesStore := { notes := [wOldNote], stored := some [wOldNote] }

/-- C7 witness: the round-trip theorem applied to a concrete store, draft,
fresh id and creation instant. -/
theorem addNote_roundTrip_witness :
    (∃ n, (addNote "new" 9 wInput wStore).notes = n :: wStore.notes
        ∧ n.id = "new" ∧ n.createdAt = 9 ∧ n.completed = false
        ∧ n.rawText = wInput.rawText ∧ n.title = wInput.title
        ∧ n.category = wInput.category ∧ n.dueDate = wInput.dueDate
        ∧ n.entities = wInput.entities)
    ∧ (addNote "new" 9 wInput wStore).stored
        = some (addNote "new" 9 wInput wStore).notes
    ∧ (∃ n ∈ loadNotes (addNote "new" 9 wInput wStore).stored, n.id = "new")
    ∧ (∀ n ∈ loadNotes (addNote "new" 9 wInput wStore).stored, n.id = "new" →
        (n.rawText = wInput.rawText ∧ n.title = wInput.title
          ∧ n.category = wInput.category ∧ n.dueDate = wInput.dueDate
          ∧ n.entities = wInput.entities ∧ n.completed = false
          ∧ n.createdAt = 9)) :=
  addNote_roundTrip "new" 9 wInput wStore (by decide) (by decide)

/-- Single-note transform of `toggleComplete`: flip `completed` on the
note with the matching id, leave any other note untouched. -/
def toggleNote (i : String) (n : Note) : Note :=
  if n.id = i then { n with completed := !n.completed } else n

/-- The `toggleComplete` collection transform (the map the source runs
before persisting). -/
def toggleComplete (i : String) (l : List Note) : List Note :=
  l.map (toggleNote i)

/-- C8: toggling completion twice with the same id returns the collection
to exactly its original value: the targeted note regains its original
`completed` flag and every other note and every other field is unchanged. -/
theorem toggleComplete_twice (i : String) (l : List Note) :
    toggleComplete i (toggleComplete i l) = l := by
  simp only [toggleComplete, List.map_map]
  have hcomp : toggleNote i ∘ toggleNote i = id := by
    funext n
    cases n with
    | mk nid raw title cat due ent comp created =>
      by_cases h : nid = i
      · simp [Function.comp, toggleNote, h, Bool.not_not]
      · simp [Function.comp, toggleNote, h]
  rw [hcomp, List.map_id]

/-! ## Notification scheduling state (`client/hooks/useNotifications.tsx`)

`pending` models the set of notifications currently scheduled with the OS
(by handle); `idMap` models the persisted note-id to notification-handle
JSON object as a functional association list. -/

structure NotifState where
  pending : List String
  idMap : List (String × String)
deriving DecidableEq, Repr

/-- The `cancelNoteReminder(noteId)` operation: when the map holds a
handle for the note, cancel that scheduled notification and delete the
map entry; otherwise do nothing. -/
def cancelNoteReminder (noteId : String) (s : NotifState) : NotifState :=
  match s.idMap.lookup noteId with
  | some h =>
    { pending := s.pending.filter (fun x => x != h)
      idMap := s.idMap.filter (fun p => p.1 != noteId) }
  | none => s

/-- JS object assignment `map[k] = v` on the id map: the binding for `k`
is replaced. -/
def setKey (k v : String) (m : List (String × String)) : List (String × String) :=
  (k, v) :: m.filter (fun p => p.1 != k)

/-- The `scheduleNoteReminder(note)` operation.  `permissionGranted`
models the permission request outcome and `freshHandle` the handle the OS
returns for the newly scheduled notification.  Without permission or
without a computable trigger instant nothing happens; otherwise a prior
scheduled notification for the same note id is cancelled first, the new
notification is scheduled, and the map entry is overwritten. -/
def scheduleNoteReminder (permissionGranted : Bool) (now : Nat) (note : Note)
    (freshHandle : String) (s : NotifState) : NotifState × Bool :=
  if permissionGranted = false then (s, false)
  else
    match calculateTriggerDate now note with
    | none => (s, false)
    | some _ =>
      let s1 : NotifState :=
        match s.idMap.lookup note.id with
        | some old => { s with pending := s.pending.filter (fun x => x != old) }
        | none => s
      ({ pending := freshHandle :: s1.pending
         idMap := setKey note.id freshHandle s1.idMap }, true)

/-- Association-list helper: filtering out every pair with key `i` makes
the lookup of `i` come out empty. -/
theorem lookup_filter_key_ne (m : List (String × String)) (i : String) :
    (m.filter (fun p => p.1 != i)).lookup i = none := by
  induction m with
  | nil => rfl
  | cons p ps ih =>
    cases p with
    | mk k v =>
      by_cases h : k = i
      · have hb : ¬((((k, v) : String × String).1 != i) = true) := by simp [h]
        rw [@List.filter_cons_of_neg _ (fun p => p.1 != i) (k, v) ps hb]
        exact ih
      · have hb : ((((k, v) : String × String).1 != i) = true) := by simp [h]
        rw [@List.filter_cons_of_pos _ (fun p => p.1 != i) (k, v) ps hb]
        have hbeq : (i == k) = false := beq_false_of_ne (Ne.symm h)
        simp only [List.lookup_cons, hbeq]
        exact ih

/-- Association-list helper: filtering preserves an empty lookup. -/
theorem lookup_filter_of_none (m : List (String × String)) (j : String)
    (q : String × String → Bool) (h : m.lookup j = none) :
    (m.filter q).lookup j = none := by
  induction m with
  | nil => rfl
  | cons p ps ih =>
    cases p with
    | mk k v =>
      by_cases hj : j = k
      · exfalso
        rw [List.lookup_cons] at h
        rw [show (j == k) = true from beq_iff_eq.mpr hj] at h
        exact Option.noConfusion h
      · have hbeq : (j == k) = false := beq_false_of_ne hj
        have hps : ps.lookup j = none := by
          rw [List.lookup_cons, hbeq] at h
          exact h
        by_cases hq : q (k, v) = true
        · rw [@List.filter_cons_of_pos _ q (k, v) ps hq]
          simp only [List.lookup_cons, hbeq]
          exact ih hps
        · rw [@List.filter_cons_of_neg _ q (k, v) ps hq]
          exact ih hps

/-- C6: scheduling a reminder for a note whose id already has an entry in
the persisted map first cancels the prior scheduled notification (its
handle leaves the pending set) before the new handle is stored; the map
afterwards binds the note id to the new handle alone and stays a
functional map (pairwise distinct keys), so no note id ever holds two
live reminders. -/
theorem scheduleNoteReminder_cancels_prior (now : Nat) (note : Note)
    (freshHandle old : String) (s : NotifState)
    (htrig : (calculateTriggerDate now note).isSome = true)
    (hold : s.idMap.lookup note.id = some old)
    (hne : freshHandle ≠ old)
    (hkeys : (s.idMap.map Prod.fst).Nodup) :
    (scheduleNoteReminder true now note freshHandle s).2 = true
    ∧ old ∉ (scheduleNoteReminder true now note freshHandle s).1.pending
    ∧ (scheduleNoteReminder true now note freshHandle s).1.idMap.lookup note.id
        = some freshHandle
    ∧ ((scheduleNoteReminder true now note freshHandle s).1.idMap.map
        Prod.fst).Nodup := by
  obtain ⟨t, ht⟩ := Option.isSome_iff_exists.mp htrig
  have hred : scheduleNoteReminder true now note freshHandle s =
      ({ pending := freshHandle :: s.pending.filter (fun x => x != old)
         idMap := setKey note.id freshHandle s.idMap }, true) := by
    simp [scheduleNoteReminder, ht, hold]
  rw [hred]
  refine ⟨rfl, ?_, ?_, ?_⟩
  · intro hcon
    rcases List.mem_cons.mp hcon with heq | hmem
    · exact hne heq.symm
    · have := (List.mem_filter.mp hmem).2
      simp at this
  · simp [setKey, List.lookup_cons]
  · simp only [setKey, List.map_cons]
    refine List.nodup_cons.mpr ⟨?_, ?_⟩
    · intro hcon
      obtain ⟨p, hp, hfst⟩ := List.mem_map.mp hcon
      have := (List.mem_filter.mp hp).2
      rw [hfst] at this
      simp at this
    · exact (((List.filter_sublist _).map Prod.fst).nodup) hkeys

/-- Notification state used by the C6 witness: one pending notification
handle recorded for note id n1. -/
def wNotif : NotifState := { pending := ["h1"], idMap := [("n1", "h1")] }

/-- Note used by the C6 witness: category "today", no due date, id n1. -/
def wC6Note : Note :=
  { id := "n1", rawText := "pay rent", title := "Pay rent",
    category := "today", dueDate := none, entities := none,
    completed := false, createdAt := 0 }

/-- C6 witness: rescheduling note n1 at midnight with fresh handle h2
cancels handle h1 and leaves the map binding n1 to h2 alone. -/
theorem scheduleNoteReminder_cancels_prior_witness :
    (scheduleNoteReminder true 0 wC6Note "h2" wNotif).2 = true
    ∧ "h1" ∉ (scheduleNoteReminder true 0 wC6Note "h2" wNotif).1.pending
    ∧ (scheduleNoteReminder true 0 wC6Note "h2" wNotif).1.idMap.lookup wC6Note.id
        = some "h2"
    ∧ ((scheduleNoteReminder true 0 wC6Note "h2" wNotif).1.idMap.map
        Prod.fst).Nodup :=
  scheduleNoteReminder_cancels_prior 0 wC6Note "h2" "h1" wNotif (by decide) rfl
    (by decide) (by decide)

/-! ## Query dispatch, complete action (`client/screens/QueryModal.tsx`)

The complete branch of the post-query loop: for each matched note
(snapshot records returned by the server), toggle completion only when the
snapshot is not yet completed. -/

def applyCompleteAction (matched l : List Note) : List Note :=
  matched.foldl (fun acc m => if m.completed then acc else toggleComplete m.id acc) l

/-- Unfolding step of the dispatch loop. -/
theorem applyCompleteAction_cons (m0 : Note) (ms l : List Note) :
    applyCompleteAction (m0 :: ms) l
      = applyCompleteAction ms (if m0.completed then l else toggleComplete m0.id l) :=
  rfl

/-- Toggling preserves the note id. -/
theorem toggleNote_id (i : String) (n : Note) : (toggleNote i n).id = n.id := by
  simp only [toggleNote]
  split <;> rfl

/-- Toggling with a different id leaves the note untouched. -/
theorem toggleNote_noop (i : String) (n : Note) (h : n.id ≠ i) :
    toggleNote i n = n := if_neg h

/-- Once every note carrying id `i` is completed, a dispatch over matched
notes none of which carries id `i` keeps them completed. -/
theorem fold_complete_stable (i : String) (ms : List Note) (acc : List Note)
    (hnot : ∀ m ∈ ms, m.id ≠ i)
    (hP : ∀ n ∈ acc, n.id = i → n.completed = true) :
    ∀ n ∈ applyCompleteAction ms acc, n.id = i → n.completed = true := by
  induction ms generalizing acc with
  | nil => exact hP
  | cons m0 ms ih =>
    rw [applyCompleteAction_cons]
    refine ih _ ?_ ?_
    · intro m hm
      exact hnot m (List.mem_cons_of_mem m0 hm)
    · intro n hn hid
      by_cases hc : m0.completed = true
      · rw [if_pos hc] at hn
        exact hP n hn hid
      · rw [if_neg hc] at hn
        obtain ⟨n0, hn0, heq⟩ := List.mem_map.mp hn
        have hid0 : n0.id = i := by
          rw [← heq, toggleNote_id] at hid
          exact hid
        have hne0 : n0.id ≠ m0.id := by
          rw [hid0]
          exact (hnot m0 (List.mem_cons_self m0 ms)).symm
        rw [← heq, toggleNote_noop m0.id n0 hne0]
        exact hP n0 hn0 hid0

/-- Core induction for the complete dispatch: matched snapshots agree
with the collection on `completed`, matched ids are pairwise distinct,
and afterwards every note carrying a matched id is completed. -/
theorem fold_complete_marks (ms : List Note) (acc : List Note)
    (hnodup : (ms.map Note.id).Nodup)
    (hagree : ∀ m ∈ ms, ∀ n ∈ acc, n.id = m.id → n.completed = m.completed) :
    ∀ m ∈ ms, ∀ n ∈ applyCompleteAction ms acc, n.id = m.id → n.completed = true := by
  induction ms generalizing acc with
  | nil =>
    intro m hm
    cases hm
  | cons m0 ms ih =>
    have hhead : m0.id ∉ ms.map Note.id := (List.nodup_cons.mp hnodup).1
    have htailnodup : (ms.map Note.id).Nodup := (List.nodup_cons.mp hnodup).2
    intro m hm
    rcases List.mem_cons.mp hm with heq | htail
    · subst heq
      rw [applyCompleteAction_cons]
      refine fold_complete_stable m.id ms _ ?_ ?_
      · intro m' hm' hcon
        exact hhead (List.mem_map.mpr ⟨m', hm', hcon⟩)
      · intro x hx hid
        by_cases hc : m.completed = true
        · rw [if_pos hc] at hx
          rw [hagree m (List.mem_cons_self m ms) x hx hid]
          exact hc
        · rw [if_neg hc] at hx
          obtain ⟨x0, hx0, hxeq⟩ := List.mem_map.mp hx
          have hid0 : x0.id = m.id := by
            rw [← hxeq, toggleNote_id] at hid
            exact hid
          have hf : m.completed = false := Bool.eq_false_iff.mpr hc
          have hagg : x0.completed = m.completed :=
            hagree m (List.mem_cons_self m ms) x0 hx0 hid0
          have hxc : x.completed = !x0.completed := by
            rw [← hxeq]
            simp only [toggleNote]
            rw [if_pos hid0]
          rw [hxc, hagg, hf]
          rfl
    · rw [applyCompleteAction_cons]
      refine ih _ htailnodup ?_ m htail
      intro m' hm' x hx hid
      by_cases hc : m0.completed = true
      · rw [if_pos hc] at hx
        exact hagree m' (List.mem_cons_of_mem m0 hm') x hx hid
      · rw [if_neg hc] at hx
        obtain ⟨x0, hx0, hxeq⟩ := List.mem_map.mp hx
        have hid0 : x0.id = m'.id := by
          rw [← hxeq, toggleNote_id] at hid
          exact hid
        have hne0 : x0.id ≠ m0.id := by
          rw [hid0]
          intro hcon
          exact hhead (List.mem_map.mpr ⟨m', hm', hcon⟩)
        rw [← hxeq, toggleNote_noop m0.id x0 hne0]
        exact hagree m' (List.mem_cons_of_mem m0 hm') x0 hx0 hid0

/-- Notes whose id is matched by no dispatched note are untouched by the
complete dispatch. -/
theorem fold_complete_frame (ms : List Note) (acc : List Note) :
    ∀ n ∈ acc, n.id ∉ ms.map Note.id → n ∈ applyCompleteAction ms acc := by
  induction ms generalizing acc with
  | nil =>
    intro n hn _
    exact hn
  | cons m0 ms ih =>
    intro n hn hnot
    have hne : n.id ≠ m0.id := by
      intro hcon
      exact hnot (by simp [hcon])
    have htail : n.id ∉ ms.map Note.id := by
      intro hcon
      exact hnot (by simp [hcon])
    rw [applyCompleteAction_cons]
    refine ih _ n ?_ htail
    by_cases hc : m0.completed = true
    · rw [if_pos hc]
      exact hn
    · rw [if_neg hc]
      exact List.mem_map.mpr ⟨n, hn, toggleNote_noop m0.id n hne⟩

/-- C10: dispatching a "complete" query action toggles only matched notes
whose snapshot `completed` flag is false; afterwards every note carrying a
matched id is completed (an already-completed matched note is never
flipped back to incomplete), and notes matched by no dispatched id are
untouched.  Hypotheses: the collection has pairwise distinct ids and the
matched snapshots are drawn from it (the server filters the very list the
client sent). -/
theorem dispatch_complete_marks_matched (matched l : List Note)
    (hids : (l.map Note.id).Nodup)
    (hsub : matched.Sublist l) :
    (∀ m ∈ matched, ∀ n ∈ applyCompleteAction matched l,
        n.id = m.id → n.completed = true)
    ∧ (∀ n ∈ l, n.id ∉ matched.map Note.id → n ∈ applyCompleteAction matched l) := by
  constructor
  · refine fold_complete_marks matched l ((hsub.map Note.id).nodup hids) ?_
    intro m hm n hn hid
    have : n = m :=
      List.inj_on_of_nodup_map hids hn (hsub.subset hm) hid
    rw [this]
  · exact fold_complete_frame matched l

/-- Incomplete note used by the dispatch witness. -/
def wN1 : Note :=
  { id := "n1", rawText := "call mom", title := "Call mom",
    category := "today", dueDate := none, entities := none,
    completed := false, createdAt := 1 }

/-- Already-completed note used by the dispatch witness. -/
def wN2 : Note :=
  { id := "n2", rawText := "send invoice", title := "Send invoice",
    category := "other", dueDate := none, entities := none,
    completed := true, createdAt := 2 }

/-- Unmatched note used by the dispatch witness. -/
def wN3 : Note :=
  { id := "n3", rawText := "sketch logo", title := "Sketch logo",
    category := "idea", dueDate := none, entities := none,
    completed := false, createdAt := 3 }

/-- C10 witness: completing the matched snapshots n1 (incomplete) and n2
(already completed) against the three-note collection. -/
theorem dispatch_complete_marks_matched_witness :
    (∀ m ∈ [wN1, wN2], ∀ n ∈ applyCompleteAction [wN1, wN2] [wN1, wN2, wN3],
        n.id = m.id → n.completed = true)
    ∧ (∀ n ∈ [wN1, wN2, wN3], n.id ∉ [wN1, wN2].map Note.id →
        n ∈ applyCompleteAction [wN1, wN2] [wN1, wN2, wN3]) :=
  dispatch_complete_marks_matched [wN1, wN2] [wN1, wN2, wN3] (by decide)
    ((List.sublist_cons_self wN3 []).cons₂ wN2 |>.cons₂ wN1)

/-! ## Query dispatch with reminder cancellation
(`client/screens/QueryModal.tsx` over the tags-and-archive note store) -/

/-- Client state seen by the query dispatch: the note collection of the
tags-and-archive store plus the notification state. -/
structure DispatchState where
  notes : List NoteRec
  notif : NotifState
deriving DecidableEq, Repr

/-- Completion flip on one record (same transform as the provided store
version). -/
def toggleRec (i : String) (n : NoteRec) : NoteRec :=
  if n.id = i then { n with completed := !n.completed } else n

/-- Modelled from the spec: `toggleComplete` of the tags-and-archive note
store consumed by the query screen (that store file is not among the
provided sources; only its callers are).  It flips the `completed` flag
exactly as the provided store version does and, completing being one of
the actions that must cancel the outstanding reminder (spec 4.4; the
repository docs state reminders are cancelled when notes are completed or
deleted), cancels the reminder of the toggled note. -/
def toggleCompleteRec (i : String) (st : DispatchState) : DispatchState :=
  { notes := st.notes.map (toggleRec i)
    notif := cancelNoteReminder i st.notif }

/-- Modelled from the spec: `deleteNote` of the tags-and-archive note
store — remove the note and cancel its outstanding reminder (spec 4.4). -/
def deleteNoteRec (i : String) (st : DispatchState) : DispatchState :=
  { notes := st.notes.filter (fun n => n.id != i)
    notif := cancelNoteReminder i st.notif }

/-- Modelled from the spec: `archiveNote` of the tags-and-archive note
store — stamp `archivedAt`; it does not touch the reminder state itself
(the query screen cancels the reminder explicitly right after archiving,
which is why the source calls `cancelNoteReminder` only in that branch). -/
def archiveNoteRec (nowTs : Nat) (i : String) (st : DispatchState) : DispatchState :=
  { st with
    notes := st.notes.map (fun n =>
      if n.id = i then { n with archivedAt := some nowTs } else n) }

/-- The explicit reminder cancellation the query screen performs after
archiving. -/
def cancelReminderSt (i : String) (st : DispatchState) : DispatchState :=
  { st with notif := cancelNoteReminder i st.notif }

/-- One iteration of the post-query action loop of the query screen:
complete toggles only a not-yet-completed snapshot, delete always
deletes, archive stamps a not-yet-archived snapshot and then cancels its
reminder; any other action leaves the state alone. -/
def queryActionStep (action : String) (nowTs : Nat) (acc : DispatchState)
    (m : NoteRec) : DispatchState :=
  if action = "complete" then
    if m.completed then acc else toggleCompleteRec m.id acc
  else if action = "delete" then deleteNoteRec m.id acc
  else if action = "archive" then
    match m.archivedAt with
    | some _ => acc
    | none => cancelReminderSt m.id (archiveNoteRec nowTs m.id acc)
  else acc

/-- The post-query action loop over the matched snapshots. -/
def applyQueryAction (action : String) (nowTs : Nat) (matched : List NoteRec)
    (st : DispatchState) : DispatchState :=
  matched.foldl (queryActionStep action nowTs) st

/-- Unfolding step of the action loop. -/
theorem applyQueryAction_cons (action : String) (nowTs : Nat) (m0 : NoteRec)
    (ms : List NoteRec) (st : DispatchState) :
    applyQueryAction action nowTs (m0 :: ms) st
      = applyQueryAction action nowTs ms (queryActionStep action nowTs st m0) :=
  rfl

/-- Cancelling a reminder leaves no map entry for the cancelled note id. -/
theorem cancelNoteReminder_lookup_self (i : String) (s : NotifState) :
    (cancelNoteReminder i s).idMap.lookup i = none := by
  unfold cancelNoteReminder
  cases hl : s.idMap.lookup i with
  | none => exact hl
  | some h => exact lookup_filter_key_ne s.idMap i

/-- Cancelling a reminder never creates a map entry. -/
theorem cancelNoteReminder_lookup_none (i j : String) (s : NotifState)
    (h : s.idMap.lookup j = none) :
    (cancelNoteReminder i s).idMap.lookup j = none := by
  unfold cancelNoteReminder
  cases hl : s.idMap.lookup i with
  | none => exact h
  | some x => exact lookup_filter_of_none s.idMap j _ h

/-- No iteration of the action loop creates a reminder-map entry. -/
theorem queryActionStep_lookup_none (action : String) (nowTs : Nat)
    (acc : DispatchState) (m : NoteRec) (j : String)
    (h : acc.notif.idMap.lookup j = none) :
    (queryActionStep action nowTs acc m).notif.idMap.lookup j = none := by
  unfold queryActionStep
  by_cases h1 : action = "complete"
  · rw [if_pos h1]
    by_cases h2 : m.completed = true
    · rw [if_pos h2]
      exact h
    · rw [if_neg h2]
      exact cancelNoteReminder_lookup_none m.id j acc.notif h
  · rw [if_neg h1]
    by_cases h3 : action = "delete"
    · rw [if_pos h3]
      exact cancelNoteReminder_lookup_none m.id j acc.notif h
    · rw [if_neg h3]
      by_cases h4 : action = "archive"
      · rw [if_pos h4]
        cases m.archivedAt with
        | none => exact cancelNoteReminder_lookup_none m.id j acc.notif h
        | some t => exact h
      · rw [if_neg h4]
        exact h

/-- An absent reminder-map entry stays absent through the whole loop. -/
theorem applyQueryAction_lookup_none (action : String) (nowTs : Nat)
    (ms : List NoteRec) (st : DispatchState) (j : String)
    (h : st.notif.idMap.lookup j = none) :
    (applyQueryAction action nowTs ms st).notif.idMap.lookup j = none := by
  induction ms generalizing st with
  | nil => exact h
  | cons m0 ms ih =>
    rw [applyQueryAction_cons]
    exact ih _ (queryActionStep_lookup_none action nowTs st m0 j h)

/-- C5: dispatching a complete, delete or archive query action cancels
the outstanding reminder of every matched note the action affects: after
the dispatch, the persisted note-id to reminder-handle map holds no entry
for a matched note that became completed (its snapshot was incomplete),
was deleted, or became archived (its snapshot was unarchived). -/
theorem applyQueryAction_cancels_reminders (action : String) (nowTs : Nat)
    (matched : List NoteRec) (st : DispatchState) (m : NoteRec)
    (hm : m ∈ matched)
    (hact : action = "complete" ∨ action = "delete" ∨ action = "archive")
    (hcomp : action = "complete" → m.completed = false)
    (harch : action = "archive" → m.archivedAt = none) :
    (applyQueryAction action nowTs matched st).notif.idMap.lookup m.id = none := by
  induction matched generalizing st with
  | nil => cases hm
  | cons m0 ms ih =>
    rw [applyQueryAction_cons]
    rcases List.mem_cons.mp hm with heq | htail
    · subst heq
      refine applyQueryAction_lookup_none action nowTs ms _ m.id ?_
      rcases hact with h1 | h2 | h3
      · rw [queryActionStep, if_pos h1]
        have : m.completed = false := hcomp h1
        rw [if_neg (by rw [this]; exact Bool.false_ne_true)]
        exact cancelNoteReminder_lookup_self m.id st.notif
      · rw [queryActionStep, if_neg (by rw [h2]; decide), if_pos h2]
        exact cancelNoteReminder_lookup_self m.id st.notif
      · rw [queryActionStep, if_neg (by rw [h3]; decide),
          if_neg (by rw [h3]; decide), if_pos h3, harch h3]
        exact cancelNoteReminder_lookup_self m.id _
    · exact ih _ htail

/-- Notification state used by the C5 witness: note b holds a live
reminder handle. -/
def wNotifB : NotifState := { pending := ["hB"], idMap := [("b", "hB")] }

/-- C5 witness: a delete dispatch over the matched snapshot b removes the
reminder-map entry of b. -/
theorem applyQueryAction_cancels_reminders_witness :
    (applyQueryAction "delete" 7 [wNoteB]
        { notes := [wNoteA, wNoteB], notif := wNotifB }).notif.idMap.lookup
      wNoteB.id = none :=
  applyQueryAction_cancels_reminders "delete" 7 [wNoteB]
    { notes := [wNoteA, wNoteB], notif := wNotifB } wNoteB
    (List.mem_singleton.mpr rfl)
    (Or.inr (Or.inl rfl))
    (fun _ => rfl)
    (fun _ => rfl)

/-! ## Custom sections (`client/hooks/useCustomSections.tsx`) -/

structure CustomSection where
  id : String
  name : String
  icon : String
  keywords : List String
  createdAt : Nat
deriving DecidableEq, Repr

/-- The `deleteSection` collection transform:
`sections.filter((section) => section.id !== id)`. -/
def deleteSection (i : String) (sections : List CustomSection) : List CustomSection :=
  sections.filter (fun s => s.id != i)

/-- Combined client state: notes (with their `tags`) and custom sections. -/
structure AppState where
  notes : List NoteRec
  sections : List CustomSection
deriving DecidableEq, Repr

/-- The section-store mutation seen by the whole client state: only the
sections collection is transformed. -/
def deleteSectionApp (i : String) (st : AppState) : AppState :=
  { st with sections := deleteSection i st.sections }

/-- C9: `deleteSection(id)` removes exactly the sections carrying that id
and nothing else, and does not modify the notes collection in any way: in
particular no tag referencing the deleted section is stripped from any
note (the sweep is a separate caller-level step). -/
theorem deleteSection_removes_only_section (i : String) (st : AppState) :
    (∀ s, s ∈ (deleteSectionApp i st).sections ↔ (s ∈ st.sections ∧ s.id ≠ i))
    ∧ (deleteSectionApp i st).notes = st.notes
    ∧ (deleteSectionApp i st).notes.map NoteRec.tags = st.notes.map NoteRec.tags := by
  refine ⟨?_, rfl, rfl⟩
  intro s
  simp [deleteSectionApp, deleteSection, List.mem_filter, bne_iff_ne]

end VoiceNotes
